import Mathlib

/-!
# Verification of the business-assistant front-end controllers

Shallow embedding of the two browser-side controllers of the repository:

* the onboarding flow controller (`src/static/js/script.js`): session id,
  conversation phase, pending clarification questions, and the
  idea-submission / clarification transitions;
* the section-chat controller of the dashboard variant with per-section
  chat (`src/unnamed/part_000`): per-topic chat threads, open/send
  operations, optimistic history updates and error entries.

DOM mutations are modelled as explicit state fields (the modal history is
the list of message bubbles in the modal `div`; the per-topic cache is an
association list mirroring the JS object `chatHistoryMap`).  Backend
round-trips are modelled by passing the fetch outcome as an explicit
argument; a JS exception is an `Except.error` result.  Markdown rendering
(`marked.parse`) is an external formatting collaborator and is treated as
the identity on the stored text.
-/

set_option autoImplicit false

namespace BizAssist

/-- JS string truthiness for `a || b` on strings: the empty string is falsy. -/
def jsOr (a b : String) : String := if a = "" then b else a

/-- Rendering of a possibly-`null` JS string inside a template literal:
`null` prints as `"null"`. -/
def jsTemplate (s : Option String) : String := s.getD "null"

/-- JS `String.prototype.trim`: strip whitespace from both ends. -/
def jsTrim (s : String) : String :=
  ⟨((s.data.dropWhile Char.isWhitespace).reverse.dropWhile Char.isWhitespace).reverse⟩

/-- `charsMatchAt hay needle`: `needle` occurs at the head of `hay`. -/
def charsMatchAt : List Char → List Char → Bool
  | _, [] => true
  | [], _ :: _ => false
  | a :: as, b :: bs => a == b && charsMatchAt as bs

/-- `charsInclude hay needle`: `needle` occurs somewhere inside `hay`. -/
def charsInclude : List Char → List Char → Bool
  | [], needle => needle.isEmpty
  | h :: t, needle => charsMatchAt (h :: t) needle || charsInclude t needle

/-- Embedding of JS `String.prototype.includes`. -/
def strIncludes (hay needle : String) : Bool :=
  charsInclude hay.data needle.data

/-- JS object assignment `m[k] = v` on an association list with unique keys:
replaces the binding in place when the key is present, appends otherwise. -/
def objAssign {α : Type} : List (String × α) → String → α → List (String × α)
  | [], k, v => [(k, v)]
  | p :: rest, k, v => if p.1 == k then (k, v) :: rest else p :: objAssign rest k v

/-- JS object read `m[k]` on an association list. -/
def objLookup {α : Type} (m : List (String × α)) (k : String) : Option α :=
  (m.find? (fun p => p.1 == k)).map (fun p => p.2)

/-! ## Onboarding flow controller (`src/static/js/script.js`) -/

/-- The values of the global `currentStatus` variable
(`// initial, clarification, done`). -/
inductive Phase
  | initial
  | clarification
  | done
  deriving DecidableEq, Repr

/-- A clarification question as returned by the backend
(`{question_id, question_text}`). -/
structure Question where
  question_id : String
  question_text : String
  deriving DecidableEq, Repr

/-- The mutable globals of `script.js`: `sessionId`, `currentStatus`, and
`window.currentQuestions` (absent until first stored). -/
structure OnboardState where
  sessionId : Option String
  currentStatus : Phase
  currentQuestions : Option (List Question)
  deriving DecidableEq, Repr

/-- Initial state of the page: `sessionId = null`,
`currentStatus = 'initial'`, `window.currentQuestions` unset. -/
def initialOnboardState : OnboardState :=
  { sessionId := none, currentStatus := .initial, currentQuestions := none }

/-- Parsed success body of `POST /api/idea/submit`. -/
structure IdeaData where
  session_id : String
  status : String
  message : Option String
  questions : List Question
  deriving DecidableEq, Repr

/-- Parsed success body of `POST /api/idea/clarify`. -/
structure ClarifyData where
  status : String
  deriving DecidableEq, Repr

/-- Outcome of a `fetch` round trip: a 2xx response with parsed body, a
non-2xx response (with HTTP status, `statusText`, and the optional
`detail` field of the parsed error body — `none` when the body is not
parseable or carries no detail), or a thrown exception. -/
inductive Fetch (α : Type)
  | ok (data : α)
  | httpError (status : Nat) (statusText : String) (detail : Option String)
  | thrown (msg : String)
  deriving DecidableEq, Repr

/-- A request payload sent to the backend. -/
inductive ReqPayload
  | ideaSubmit (idea_text : String) (session_id : String)
  | clarify (session_id : Option String) (answers : List (String × String))
  | chat (session_id : Option String) (topic : String) (context : String)
      (message : String)
  deriving DecidableEq, Repr

/-- Observable side effects of the controllers: backend requests, chat
bubbles appended via `addMessage`, the deferred `window.location.href`
navigation scheduled with `setTimeout`, and the loading indicator. -/
inductive Effect
  | request (r : ReqPayload)
  | addMessage (html : String) (sender : String)
  | deferredNavigate (url : String) (delayMs : Nat)
  | showLoading (b : Bool)
  deriving DecidableEq, Repr

/-- The error message thrown on a non-2xx response:
`` `API Error (${response.status}): ${errData.detail || response.statusText || "Unknown API Error"}` ``. -/
def httpErrorMessage (status : Nat) (statusText : String) (detail : Option String) :
    String :=
  "API Error (" ++ toString status ++ "): " ++
    jsOr (jsOr (detail.getD "") statusText) "Unknown API Error"

/-- The AI bubble rendered on `status === 'clarification_required'`:
backend message (or the default prompt) followed by the question list. -/
def clarificationMsgHtml (message : Option String) (questions : List Question) :
    String :=
  let questionsList :=
    String.join (questions.map (fun q =>
      "<li class=\"mb-2\">" ++ q.question_text ++ "</li>"))
  "<p><strong>" ++ jsOr (message.getD "") "I need a few more details to build a solid plan:" ++
    "</strong></p><ul>" ++ questionsList ++
    "</ul><p class=\"small mt-2\"><em>Please answer these questions in your next message.</em></p>"

/-- `handleIdeaSubmission` (`script.js` lines 40-75).  Returns the effects
emitted (the submission request first) and either the updated globals or a
thrown error message. -/
def handleIdeaSubmission (st : OnboardState) (ideaText : String)
    (resp : Fetch IdeaData) : List Effect × Except String OnboardState :=
  let req := Effect.request (.ideaSubmit ideaText "")
  match resp with
  | .thrown m => ([req], .error m)
  | .httpError status statusText detail =>
      ([req], .error (httpErrorMessage status statusText detail))
  | .ok data =>
      let st1 := { st with sessionId := some data.session_id }
      if data.status = "clarification_required" then
        ([req, .addMessage (clarificationMsgHtml data.message data.questions) "ai"],
         .ok { st1 with currentStatus := .clarification,
                        currentQuestions := some data.questions })
      else
        ([req, .addMessage "Idea accepted without clarification. Generating plan..." "ai"],
         .ok st1)

/-- The `forEach` body of `handleClarification`: for each pending question
the JS assigns `answersMap[q.question_id]` twice — first
`idx === 0 ? answerText : "See above"`, then unconditionally `answerText`
(the later assignment wins). -/
def buildAnswersAux (answerText : String) :
    Nat → List (String × String) → List Question → List (String × String)
  | _, m, [] => m
  | idx, m, q :: qs =>
      let m1 := objAssign m q.question_id (if idx = 0 then answerText else "See above")
      let m2 := objAssign m1 q.question_id answerText
      buildAnswersAux answerText (idx + 1) m2 qs

/-- The `answersMap` object built by `handleClarification` from the stored
questions and the single free-text reply. -/
def buildAnswersMap (qs : List Question) (answerText : String) :
    List (String × String) :=
  buildAnswersAux answerText 0 [] qs

/-- The success bubble rendered on `status === 'complete'`. -/
def successHtml : String :=
  "<i class=\"bi bi-check-circle-fill text-success me-2\"></i><strong>Plan Generated Successfully!</strong><p>Redirecting you to your dashboard in a moment...</p>"

/-- `handleClarification` (`script.js` lines 77-132).  Builds the answer
map (empty when `window.currentQuestions` is unset; `forEach` over an
empty array also yields an empty map), sends the clarify request, and on
`status === 'complete'` schedules the deferred navigation.  Note that no
branch writes `currentStatus`. -/
def handleClarification (st : OnboardState) (answerText : String)
    (resp : Fetch ClarifyData) : List Effect × Except String OnboardState :=
  let answersMap :=
    match st.currentQuestions with
    | some qs => buildAnswersMap qs answerText
    | none => []
  let req := Effect.request (.clarify st.sessionId answersMap)
  match resp with
  | .thrown m => ([req], .error m)
  | .httpError status statusText detail =>
      ([req], .error (httpErrorMessage status statusText detail))
  | .ok data =>
      if data.status = "complete" then
        ([req, .addMessage successHtml "ai",
          .deferredNavigate
            ("/static/results.html?session_id=" ++ jsTemplate st.sessionId) 2000],
         .ok st)
      else
        ([req,
          .addMessage ("Something unexpected happened. Status: " ++ data.status) "ai"],
         .ok st)

/-- `sendMessage` (`script.js` lines 16-38): trims the input (empty input
is a no-op), echoes the user bubble, shows the loading indicator, routes
on `currentStatus` (phase `done` matches neither branch), catches a thrown
error into an `Error: ...` bubble, and hides the indicator. -/
def sendMessage (st : OnboardState) (inputValue : String)
    (ideaResp : Fetch IdeaData) (clarResp : Fetch ClarifyData) :
    OnboardState × List Effect :=
  let text := jsTrim inputValue
  if text = "" then (st, [])
  else
    let pre : List Effect := [.addMessage text "user", .showLoading true]
    let step : List Effect × Except String OnboardState :=
      match st.currentStatus with
      | .initial => handleIdeaSubmission st text ideaResp
      | .clarification => handleClarification st text clarResp
      | .done => ([], .ok st)
    match step with
    | (effs, .ok st2) => (st2, pre ++ effs ++ [.showLoading false])
    | (effs, .error m) =>
        (st, pre ++ effs ++ [.addMessage ("Error: " ++ m) "ai", .showLoading false])

/-- One user action on the onboarding page: the raw input value and the
backend outcome for whichever request the controller issues. -/
structure OnboardOp where
  inputValue : String
  ideaResp : Fetch IdeaData
  clarResp : Fetch ClarifyData

/-- Run a sequence of user actions through `sendMessage`. -/
def runOnboard : OnboardState → List OnboardOp → OnboardState
  | st, [] => st
  | st, op :: ops =>
      runOnboard (sendMessage st op.inputValue op.ideaResp op.clarResp).1 ops

/-! ## Section chat controller (`src/unnamed/part_000`) -/

/-- One bubble in the modal chat history `div`.  The DOM `innerHTML` of
the modal is a concatenation of such bubbles, modelled as a list. -/
inductive ChatEntry
  | placeholder
  | userMsg (text : String)
  | loading (id : Nat)
  | aiMsg (html : String)
  | errorMsg (text : String)
  deriving DecidableEq, Repr

/-- The placeholder text shown in an empty thread. -/
def placeholderText : String := "Start a conversation about this section..."

/-- Text content of a bubble, as far as the
`innerHTML.includes('Start a conversation')` check can observe it. -/
def entryHtmlText : ChatEntry → String
  | .placeholder => placeholderText
  | .userMsg t => t
  | .loading _ => " Thinking..."
  | .aiMsg t => t
  | .errorMsg t => t

/-- The mutable chat globals of the dashboard: `currentChatTopic`,
`currentChatContext`, the per-topic cache `chatHistoryMap`
(topic -> stored history), and the modal history `div` contents. -/
structure DashState where
  currentChatTopic : String
  currentChatContext : String
  chatHistoryMap : List (String × List ChatEntry)
  modalHistory : List ChatEntry
  deriving DecidableEq, Repr

/-- Dashboard page just loaded: no topic selected, empty cache, empty
modal. -/
def initialDashState : DashState :=
  { currentChatTopic := "", currentChatContext := "",
    chatHistoryMap := [], modalHistory := [] }

/-- `chatHistoryMap[topic] || placeholder`: a missing entry — and, by JS
string truthiness, an empty stored string — falls back to the
placeholder bubble. -/
def jsOrHistory (stored : Option (List ChatEntry)) : List ChatEntry :=
  match stored with
  | some h => if h.isEmpty then [ChatEntry.placeholder] else h
  | none => [ChatEntry.placeholder]

/-- `openChat(topic, context)` (`part_000` lines 157-176): records the
topic and context and displays the stored history (or the placeholder).
The cache itself is not modified. -/
def openChat (st : DashState) (topic context : String) : DashState :=
  { st with
    currentChatTopic := topic
    currentChatContext := context
    modalHistory := jsOrHistory (objLookup st.chatHistoryMap topic) }

/-- The `onclick` handler installed by `addChatButton` (`part_000`
lines 188-192): it invokes the context supplier at click time and opens
the thread with that snapshot.  The supplier is modelled as a function of
an abstract instant `now : Nat`, standing for whatever is true of the
section's data at the moment it is invoked. -/
def clickChatButton (st : DashState) (topic : String)
    (getContextFn : Nat → String) (now : Nat) : DashState :=
  openChat st topic (getContextFn now)

/-- Outcome of the `POST /api/assistant/chat` round trip.  `thrown` also
covers a non-parseable body, since `response.json()` runs before the
`response.ok` check. -/
inductive ChatFetch
  | ok (reply : String)
  | httpError (detail : Option String)
  | thrown (msg : String)
  deriving DecidableEq, Repr

/-- `document.getElementById(loadingId).remove()`: drop the (unique)
loading bubble with the given id. -/
def removeLoading (h : List ChatEntry) (id : Nat) : List ChatEntry :=
  h.eraseP (fun e => e == ChatEntry.loading id)

/-- `sendChatMessage` (`part_000` lines 216-280): trims the input (empty
is a no-op), clears the placeholder, optimistically appends the user
bubble and saves the cache, appends a loading bubble, issues the chat
request with the *cached* `currentChatContext`, then replaces the loading
bubble with the reply or an error bubble and saves the cache again.  The
session id is read from the URL at send time and passed in here. -/
def sendChatMessage (st : DashState) (sessionId : Option String)
    (inputValue : String) (loadingId : Nat) (resp : ChatFetch) :
    DashState × List Effect :=
  let text := jsTrim inputValue
  if text = "" then (st, [])
  else
    let topic := st.currentChatTopic
    let hist0 :=
      if st.modalHistory.any (fun e => strIncludes (entryHtmlText e) "Start a conversation")
      then [] else st.modalHistory
    let hist1 := hist0 ++ [ChatEntry.userMsg text]
    let map1 := objAssign st.chatHistoryMap topic hist1
    let hist2 := hist1 ++ [ChatEntry.loading loadingId]
    let req := Effect.request (.chat sessionId topic st.currentChatContext text)
    let hist3 :=
      match resp with
      | .ok reply => removeLoading hist2 loadingId ++ [ChatEntry.aiMsg reply]
      | .httpError detail =>
          removeLoading hist2 loadingId ++
            [ChatEntry.errorMsg ("Error: " ++ jsOr (detail.getD "") "Unknown error")]
      | .thrown m =>
          removeLoading hist2 loadingId ++
            [ChatEntry.errorMsg ("Network Error: " ++ m)]
    ({ st with chatHistoryMap := objAssign map1 topic hist3, modalHistory := hist3 },
     [req])

/-- One user action on the dashboard: clicking a section's chat button, or
sending a message in the open modal. -/
inductive DashOp
  | click (topic : String) (getContextFn : Nat → String) (now : Nat)
  | send (sessionId : Option String) (inputValue : String) (loadingId : Nat)
      (resp : ChatFetch)

/-- Step the dashboard state by one user action. -/
def dashStep (st : DashState) : DashOp → DashState
  | .click topic f now => clickChatButton st topic f now
  | .send sid input lid resp => (sendChatMessage st sid input lid resp).1

/-- Run a sequence of dashboard actions. -/
def runDash : DashState → List DashOp → DashState
  | st, [] => st
  | st, op :: ops => runDash (dashStep st op) ops

/-- The stored history of a topic's thread (empty when the thread was
never written). -/
def storedHist (st : DashState) (topic : String) : List ChatEntry :=
  (objLookup st.chatHistoryMap topic).getD []

/-- The user-message texts of a history, in order. -/
def userMsgsOf (h : List ChatEntry) : List String :=
  h.filterMap (fun e => match e with | .userMsg t => some t | _ => none)

/-- The non-empty trimmed texts sent while `topic` was the current topic,
in send order, along a run starting at `st`. -/
def sentOn (topic : String) : DashState → List DashOp → List String
  | _, [] => []
  | st, op :: ops =>
      let rest := sentOn topic (dashStep st op) ops
      match op with
      | .send _ input _ _ =>
          if st.currentChatTopic = topic ∧ jsTrim input ≠ "" then
            jsTrim input :: rest
          else rest
      | .click _ _ _ => rest

/-! ## Association-list lemmas -/

theorem objLookup_nil {α : Type} (k : String) :
    objLookup ([] : List (String × α)) k = none := rfl

theorem objLookup_cons {α : Type} (p : String × α) (rest : List (String × α))
    (k : String) :
    objLookup (p :: rest) k = if p.1 = k then some p.2 else objLookup rest k := by
  by_cases h : p.1 = k
  · simp [objLookup, List.find?_cons_of_pos, h]
  · simp [objLookup, List.find?_cons_of_neg, h]

theorem objAssign_cons_pos {α : Type} {p : String × α} {k : String}
    (rest : List (String × α)) (v : α) (h : p.1 = k) :
    objAssign (p :: rest) k v = (k, v) :: rest := by
  simp [objAssign, h]

theorem objAssign_cons_neg {α : Type} {p : String × α} {k : String}
    (rest : List (String × α)) (v : α) (h : ¬ p.1 = k) :
    objAssign (p :: rest) k v = p :: objAssign rest k v := by
  simp [objAssign, h]

theorem objLookup_objAssign_self {α : Type} (m : List (String × α)) (k : String)
    (v : α) : objLookup (objAssign m k v) k = some v := by
  induction m with
  | nil => simp [objAssign, objLookup_cons]
  | cons p rest ih =>
      by_cases h : p.1 = k
      · rw [objAssign_cons_pos rest v h, objLookup_cons]; simp
      · rw [objAssign_cons_neg rest v h, objLookup_cons, if_neg h]; exact ih

theorem objLookup_objAssign_ne {α : Type} (m : List (String × α)) (k k' : String)
    (v : α) (h : k' ≠ k) : objLookup (objAssign m k v) k' = objLookup m k' := by
  induction m with
  | nil =>
      simp [objAssign, objLookup_cons, objLookup_nil, Ne.symm h]
  | cons p rest ih =>
      by_cases hp : p.1 = k
      · rw [objAssign_cons_pos rest v hp, objLookup_cons, objLookup_cons]
        rw [if_neg (Ne.symm h), if_neg (by rw [hp]; exact Ne.symm h)]
      · rw [objAssign_cons_neg rest v hp, objLookup_cons, objLookup_cons, ih]

theorem objAssign_objAssign {α : Type} (m : List (String × α)) (k : String)
    (v₁ v₂ : α) : objAssign (objAssign m k v₁) k v₂ = objAssign m k v₂ := by
  induction m with
  | nil => simp [objAssign]
  | cons p rest ih =>
      by_cases h : p.1 = k
      · rw [objAssign_cons_pos rest v₁ h, objAssign_cons_pos rest v₂ h]
        exact objAssign_cons_pos rest v₂ rfl
      · rw [objAssign_cons_neg rest v₁ h, objAssign_cons_neg rest v₂ h,
          objAssign_cons_neg _ v₂ h, ih]

theorem mem_objAssign {α : Type} {m : List (String × α)} {k : String} {v : α}
    {p : String × α} (h : p ∈ objAssign m k v) : p = (k, v) ∨ p ∈ m := by
  induction m with
  | nil => simpa [objAssign] using h
  | cons q rest ih =>
      by_cases hq : q.1 = k
      · rw [objAssign_cons_pos rest v hq] at h
        rcases List.mem_cons.mp h with h' | h'
        · exact .inl h'
        · exact .inr (List.mem_cons_of_mem _ h')
      · rw [objAssign_cons_neg rest v hq] at h
        rcases List.mem_cons.mp h with h' | h'
        · exact .inr (by simp [h'])
        · rcases ih h' with h'' | h''
          · exact .inl h''
          · exact .inr (List.mem_cons_of_mem _ h'')

theorem keys_objAssign {α : Type} (m : List (String × α)) (k : String) (v : α) :
    (objAssign m k v).map Prod.fst =
      if k ∈ m.map Prod.fst then m.map Prod.fst else m.map Prod.fst ++ [k] := by
  induction m with
  | nil => simp [objAssign]
  | cons p rest ih =>
      by_cases h : p.1 = k
      · rw [objAssign_cons_pos rest v h]
        simp [h]
      · rw [objAssign_cons_neg rest v h, List.map_cons, List.map_cons, ih]
        by_cases hk : k ∈ rest.map Prod.fst
        · simp [hk, Ne.symm h]
        · simp [hk, Ne.symm h]

theorem nodup_keys_objAssign {α : Type} {m : List (String × α)} (k : String)
    (v : α) (h : (m.map Prod.fst).Nodup) :
    ((objAssign m k v).map Prod.fst).Nodup := by
  rw [keys_objAssign]
  by_cases hk : k ∈ m.map Prod.fst
  · simpa [hk] using h
  · simp only [hk, if_false]
    rw [List.nodup_append]
    refine ⟨h, List.nodup_singleton k, ?_⟩
    intro a ha hb
    rw [List.mem_singleton.mp hb] at ha
    exact hk ha

theorem mem_keys_objAssign_self {α : Type} (m : List (String × α)) (k : String)
    (v : α) : k ∈ (objAssign m k v).map Prod.fst := by
  rw [keys_objAssign]
  by_cases hk : k ∈ m.map Prod.fst <;> simp [hk]

theorem mem_keys_objAssign_of_mem {α : Type} {m : List (String × α)} {k' : String}
    (k : String) (v : α) (h : k' ∈ m.map Prod.fst) :
    k' ∈ (objAssign m k v).map Prod.fst := by
  rw [keys_objAssign]
  by_cases hk : k ∈ m.map Prod.fst <;> simp [hk, h]

theorem objLookup_exists_of_mem_keys {α : Type} {m : List (String × α)}
    {k : String} (h : k ∈ m.map Prod.fst) :
    ∃ v, objLookup m k = some v ∧ (k, v) ∈ m := by
  induction m with
  | nil => simp at h
  | cons p rest ih =>
      obtain ⟨a, b⟩ := p
      rw [objLookup_cons]
      by_cases hp : a = k
      · subst hp
        exact ⟨b, by simp, List.mem_cons_self _ _⟩
      · have h' : k ∈ rest.map Prod.fst := by
          simp only [List.map_cons, List.mem_cons] at h
          rcases h with h'' | h''
          · exact absurd h''.symm hp
          · exact h''
        rcases ih h' with ⟨v, hv, hm⟩
        refine ⟨v, ?_, List.mem_cons_of_mem _ hm⟩
        simpa [hp] using hv

/-! ## String-inclusion lemmas -/

theorem charsMatchAt_self : ∀ l : List Char, charsMatchAt l l = true
  | [] => rfl
  | a :: as => by simp [charsMatchAt, charsMatchAt_self as]

theorem charsInclude_self : ∀ l : List Char, charsInclude l l = true
  | [] => rfl
  | a :: as => by simp [charsInclude, charsMatchAt_self]

theorem charsInclude_append (l r : List Char) : charsInclude (l ++ r) r = true := by
  induction l with
  | nil => simpa using charsInclude_self r
  | cons a as ih => simp [charsInclude, ih]

/-- A string always `includes` its own suffix. -/
theorem strIncludes_append_self (a b : String) : strIncludes (a ++ b) b = true := by
  unfold strIncludes
  rw [String.data_append]
  exact charsInclude_append a.data b.data

/-! ## Answer-map lemmas -/

/-- The two consecutive JS assignments to the same key collapse to the
final one. -/
theorem buildAnswersAux_step (A : String) (idx : Nat) (m : List (String × String))
    (q : Question) (qs : List Question) :
    buildAnswersAux A idx m (q :: qs) =
      buildAnswersAux A (idx + 1) (objAssign m q.question_id A) qs := by
  simp [buildAnswersAux, objAssign_objAssign]

theorem values_buildAnswersAux (A : String) :
    ∀ (qs : List Question) (idx : Nat) (m : List (String × String)),
      (∀ p ∈ m, p.2 = A) → ∀ p ∈ buildAnswersAux A idx m qs, p.2 = A := by
  intro qs
  induction qs with
  | nil => intro idx m hm; simpa [buildAnswersAux] using hm
  | cons q qs ih =>
      intro idx m hm
      rw [buildAnswersAux_step]
      refine ih _ _ ?_
      intro p hp
      rcases mem_objAssign hp with h | h
      · rw [h]
      · exact hm p h

theorem mem_keys_buildAnswersAux (A : String) :
    ∀ (qs : List Question) (idx : Nat) (m : List (String × String)) (k : String),
      k ∈ m.map Prod.fst → k ∈ (buildAnswersAux A idx m qs).map Prod.fst := by
  intro qs
  induction qs with
  | nil => intro idx m k h; simpa [buildAnswersAux] using h
  | cons q qs ih =>
      intro idx m k h
      rw [buildAnswersAux_step]
      exact ih _ _ _ (mem_keys_objAssign_of_mem _ _ h)

theorem mem_keys_buildAnswersAux_of_mem (A : String) :
    ∀ (qs : List Question) (idx : Nat) (m : List (String × String)) (q : Question),
      q ∈ qs → q.question_id ∈ (buildAnswersAux A idx m qs).map Prod.fst := by
  intro qs
  induction qs with
  | nil => intro idx m q h; simp at h
  | cons q' qs ih =>
      intro idx m q h
      rw [buildAnswersAux_step]
      rcases List.mem_cons.mp h with h' | h'
      · subst h'
        exact mem_keys_buildAnswersAux A qs _ _ _ (mem_keys_objAssign_self _ _ _)
      · exact ih _ _ _ h'

/-- **C3.** For every stored pending-question list and every answer text `A`,
the answer map constructed by the clarification submission maps each pending
question's id to the same full text `A`: the single free-text reply is
duplicated across all question keys, with no per-question split. -/
theorem C3_answer_duplication (qs : List Question) (A : String) :
    (∀ p ∈ buildAnswersMap qs A, p.2 = A) ∧
    (∀ q ∈ qs, objLookup (buildAnswersMap qs A) q.question_id = some A) := by
  constructor
  · exact values_buildAnswersAux A qs 0 [] (by simp)
  · intro q hq
    have hk := mem_keys_buildAnswersAux_of_mem A qs 0 [] q hq
    rcases objLookup_exists_of_mem_keys hk with ⟨v, hv, hm⟩
    have hva : v = A := values_buildAnswersAux A qs 0 [] (by simp) _ hm
    rw [buildAnswersMap, hv, hva]

/-- Closed instance of `C3_answer_duplication`: two pending questions, one
free-text reply, both keys mapped to the full reply. -/
theorem C3_witness :
    objLookup (buildAnswersMap [⟨"q1", "What market?"⟩, ⟨"q2", "What budget?"⟩]
      "my answer") "q2" = some "my answer" := by
  exact (C3_answer_duplication [⟨"q1", "What market?"⟩, ⟨"q2", "What budget?"⟩]
    "my answer").2 ⟨"q2", "What budget?"⟩ (by simp)

/-! ## Onboarding controller lemmas and claims -/

/-- Effect classifier: backend requests. -/
def isRequest : Effect → Bool
  | .request _ => true
  | _ => false

/-- Effect classifier: deferred navigation directives. -/
def isNavigate : Effect → Bool
  | .deferredNavigate _ _ => true
  | _ => false

/-- In any phase other than `initial`, `sendMessage` returns the state
unchanged: `handleClarification` never writes a global, and phase `done`
matches neither dispatch branch. -/
theorem sendMessage_state_of_ne_initial (st : OnboardState) (input : String)
    (ir : Fetch IdeaData) (cr : Fetch ClarifyData)
    (h : st.currentStatus ≠ .initial) :
    (sendMessage st input ir cr).1 = st := by
  unfold sendMessage
  by_cases he : jsTrim input = ""
  · simp [he]
  · cases hst : st.currentStatus with
    | initial => exact absurd hst h
    | clarification =>
        unfold handleClarification
        cases cr with
        | ok d =>
            by_cases hc : d.status = "complete" <;> simp [he, hst, hc]
        | httpError code stext detail => simp [he, hst]
        | thrown m => simp [he, hst]
    | done => simp [he, hst]

/-- Once the phase is no longer `initial`, no sequence of user actions
changes the state at all. -/
theorem runOnboard_fixed (st : OnboardState) (ops : List OnboardOp)
    (h : st.currentStatus ≠ .initial) : runOnboard st ops = st := by
  induction ops with
  | nil => rfl
  | cons op ops ih =>
      show runOnboard (sendMessage st op.inputValue op.ideaResp op.clarResp).1 ops = st
      rw [sendMessage_state_of_ne_initial st op.inputValue op.ideaResp op.clarResp h]
      exact ih

/-- **C2 (counterexample).** The claim as stated is false: a successful idea
submission whose status is not `clarification_required` assigns the session
identifier while the phase stays `initial`, and a second submission then
overwrites it (`sessionId = data.session_id` runs on every 2xx response,
`script.js` line 54, and only `clarification_required` leaves phase
`initial`). -/
theorem C2_counterexample :
    (runOnboard initialOnboardState
        [⟨"idea one", .ok ⟨"s1", "complete", none, []⟩, .ok ⟨"done"⟩⟩]).sessionId
      = some "s1" ∧
    (runOnboard initialOnboardState
        [⟨"idea one", .ok ⟨"s1", "complete", none, []⟩, .ok ⟨"done"⟩⟩,
         ⟨"idea two", .ok ⟨"s2", "complete", none, []⟩, .ok ⟨"done"⟩⟩]).sessionId
      = some "s2" ∧
    some "s1" ≠ some "s2" :=
  ⟨rfl, rfl, by decide⟩

/-- **C2 (amended).** Once the phase has left `AwaitingIdea` — which is what
a successful submission answered with `clarification_required` causes — the
session identifier (and the whole controller state) is never changed again
by any subsequent sequence of operations. -/
theorem C2_session_immutable (st : OnboardState) (s : String)
    (ops : List OnboardOp) (hphase : st.currentStatus ≠ .initial)
    (hsid : st.sessionId = some s) :
    (runOnboard st ops).sessionId = some s ∧
    (runOnboard st ops).currentStatus ≠ .initial := by
  rw [runOnboard_fixed st ops hphase]
  exact ⟨hsid, hphase⟩

/-- Closed instance of `C2_session_immutable`. -/
theorem C2_witness :
    (runOnboard ⟨some "s1", .clarification, some []⟩
      [⟨"more text", .thrown "", .ok ⟨"complete"⟩⟩]).sessionId = some "s1" :=
  (C2_session_immutable ⟨some "s1", .clarification, some []⟩ "s1"
    [⟨"more text", .thrown "", .ok ⟨"complete"⟩⟩] (by decide) rfl).1

/-- **C1 (counterexample).** The claim as stated is false: on a clarification
response with `status: "complete"` the controller never assigns
`currentStatus = 'done'` (no assignment exists in `script.js` lines
119-131), so the phase does not transition to `Complete` — it stays
`clarification` while the deferred navigation is scheduled. -/
theorem C1_counterexample :
    (sendMessage ⟨some "s1", .clarification, some [⟨"q1", "Which market?"⟩]⟩
        "my answer" (.thrown "unused") (.ok ⟨"complete"⟩)).1.currentStatus
      = Phase.clarification ∧
    Phase.clarification ≠ Phase.done :=
  ⟨rfl, by decide⟩

/-- **C1 (amended).** For every successful clarification request whose
response has status `"complete"`, the controller state is left unchanged
(the phase stays `AwaitingClarification`; navigation away is the terminal
hand-off) and exactly one deferred navigation directive is emitted,
addressed to the results view with the current session identifier as a
query parameter, after the fixed 2000 ms delay. -/
theorem C1_complete_navigation (st : OnboardState) (s input : String)
    (ir : Fetch IdeaData) (hphase : st.currentStatus = .clarification)
    (hsid : st.sessionId = some s) (hne : jsTrim input ≠ "") :
    (sendMessage st input ir (.ok ⟨"complete"⟩)).1 = st ∧
    (sendMessage st input ir (.ok ⟨"complete"⟩)).2.filter isNavigate =
      [.deferredNavigate ("/static/results.html?session_id=" ++ s) 2000] := by
  unfold sendMessage handleClarification
  simp [hne, hphase, hsid, jsTemplate, isNavigate]

/-- Closed instance of `C1_complete_navigation`. -/
theorem C1_witness :
    (sendMessage ⟨some "s9", .clarification, some [⟨"q1", "Which market?"⟩]⟩
        "the answer" (.thrown "unused") (.ok ⟨"complete"⟩)).2.filter isNavigate =
      [.deferredNavigate "/static/results.html?session_id=s9" 2000] :=
  (C1_complete_navigation ⟨some "s9", .clarification, some [⟨"q1", "Which market?"⟩]⟩
    "s9" "the answer" (.thrown "unused") rfl rfl (by decide)).2

/-- **C4.** For every non-empty trimmed idea text submitted while the phase
is `AwaitingIdea`, exactly one request is issued — the idea submission with
the trimmed text and the empty new-session marker — and if the response
carries status `"clarification_required"` then the phase becomes
`AwaitingClarification`, the pending-question list equals the questions
from the response, and the session identifier is set from the response. -/
theorem C4_idea_submission (st : OnboardState) (input : String)
    (ir : Fetch IdeaData) (cr : Fetch ClarifyData)
    (hphase : st.currentStatus = .initial) (hne : jsTrim input ≠ "") :
    (sendMessage st input ir cr).2.filter isRequest =
      [.request (.ideaSubmit (jsTrim input) "")] ∧
    ∀ d : IdeaData, ir = .ok d → d.status = "clarification_required" →
      (sendMessage st input ir cr).1.currentStatus = .clarification ∧
      (sendMessage st input ir cr).1.currentQuestions = some d.questions ∧
      (sendMessage st input ir cr).1.sessionId = some d.session_id := by
  constructor
  · unfold sendMessage handleIdeaSubmission
    cases ir with
    | ok d =>
        by_cases hd : d.status = "clarification_required" <;>
          simp [hne, hphase, hd, isRequest]
    | httpError code stext detail => simp [hne, hphase, isRequest]
    | thrown m => simp [hne, hphase, isRequest]
  · rintro d rfl hd
    unfold sendMessage handleIdeaSubmission
    simp [hne, hphase, hd]

/-- Closed instance of `C4_idea_submission`. -/
theorem C4_witness :
    (sendMessage initialOnboardState "  my idea "
        (.ok ⟨"s1", "clarification_required", none, [⟨"q1", "Which market?"⟩]⟩)
        (.thrown "unused")).1.currentQuestions = some [⟨"q1", "Which market?"⟩] :=
  ((C4_idea_submission initialOnboardState "  my idea "
      (.ok ⟨"s1", "clarification_required", none, [⟨"q1", "Which market?"⟩]⟩)
      (.thrown "unused") rfl (by decide)).2 _ rfl rfl).2.1

/-- **C6.** For every non-2xx response to an onboarding request (in either
the idea or the clarification phase): the emitted error bubble carries the
thrown `API Error` message; when the body has a non-empty `detail` field
that message contains the detail text; when the body is not parseable the
message falls back to the transport status text; and the controller state
(phase, session identifier, pending questions) is unchanged so the user may
retry. -/
theorem C6_http_error (st : OnboardState) (input : String) (code : Nat)
    (stext : String) (detail : Option String) (hne : jsTrim input ≠ "")
    (hphase : st.currentStatus = .initial ∨ st.currentStatus = .clarification) :
    (sendMessage st input (.httpError code stext detail)
        (.httpError code stext detail)).1 = st ∧
    Effect.addMessage ("Error: " ++ httpErrorMessage code stext detail) "ai" ∈
      (sendMessage st input (.httpError code stext detail)
        (.httpError code stext detail)).2 ∧
    (∀ d, detail = some d → d ≠ "" →
      strIncludes ("Error: " ++ httpErrorMessage code stext detail) d = true) ∧
    (detail = none → stext ≠ "" →
      strIncludes ("Error: " ++ httpErrorMessage code stext detail) stext = true) := by
  refine ⟨?_, ?_, ?_, ?_⟩
  · rcases hphase with h | h <;>
      · unfold sendMessage handleIdeaSubmission handleClarification
        simp [hne, h]
  · rcases hphase with h | h <;>
      · unfold sendMessage handleIdeaSubmission handleClarification
        simp [hne, h]
  · rintro d rfl hd
    have hmsg : httpErrorMessage code stext (some d) =
        ("API Error (" ++ toString code ++ "): ") ++ d := by
      unfold httpErrorMessage
      simp [jsOr, hd]
    rw [hmsg, ← String.append_assoc]
    exact strIncludes_append_self _ d
  · rintro rfl hs
    have hmsg : httpErrorMessage code stext none =
        ("API Error (" ++ toString code ++ "): ") ++ stext := by
      unfold httpErrorMessage
      simp [jsOr, hs]
    rw [hmsg, ← String.append_assoc]
    exact strIncludes_append_self _ stext

/-- Closed instance of `C6_http_error`. -/
theorem C6_witness :
    strIncludes ("Error: " ++ httpErrorMessage 422 "Unprocessable Entity"
      (some "bad input")) "bad input" = true :=
  (C6_http_error ⟨none, .initial, none⟩ "my idea" 422 "Unprocessable Entity"
      (some "bad input") (by decide) (.inl rfl)).2.2.1 "bad input" rfl (by decide)

/-- **C10.** If the answer-submission transition is invoked with any text
while no pending questions are stored (`window.currentQuestions` unset or
an empty array), nothing is thrown by the answer-map construction and a
clarification request is still sent — it is the first emitted effect —
carrying the current session identifier and an empty answers map; on a 2xx
response the handler returns normally with the state unchanged. -/
theorem C10_no_pending_questions (st : OnboardState) (t : String)
    (resp : Fetch ClarifyData)
    (hq : st.currentQuestions = none ∨ st.currentQuestions = some []) :
    (handleClarification st t resp).1.head? =
      some (.request (.clarify st.sessionId [])) ∧
    ∀ d : ClarifyData, (handleClarification st t (.ok d)).2 = .ok st := by
  have hmap :
      (match st.currentQuestions with
        | some qs => buildAnswersMap qs t
        | none => []) = [] := by
    rcases hq with h | h <;> simp [h, buildAnswersMap, buildAnswersAux]
  constructor
  · unfold handleClarification
    rw [hmap]
    cases resp with
    | ok d => by_cases hd : d.status = "complete" <;> simp [hd]
    | httpError code stext detail => simp
    | thrown m => simp
  · intro d
    unfold handleClarification
    by_cases hd : d.status = "complete" <;> simp [hd]

/-- Closed instance of `C10_no_pending_questions`. -/
theorem C10_witness :
    (handleClarification ⟨some "s1", .clarification, none⟩ "my answer"
        (.ok ⟨"complete"⟩)).1.head? =
      some (.request (.clarify (some "s1") [])) :=
  (C10_no_pending_questions ⟨some "s1", .clarification, none⟩ "my answer"
    (.ok ⟨"complete"⟩) (.inl rfl)).1

/-! ## Section chat controller lemmas and claims -/

/-- The history a completed send leaves in the modal and in the per-topic
cache: placeholder cleared, user bubble appended, loading bubble appended
and then replaced by the reply or error bubble. -/
def sendFinalHist (st : DashState) (input : String) (loadingId : Nat)
    (resp : ChatFetch) : List ChatEntry :=
  let hist0 :=
    if st.modalHistory.any (fun e => strIncludes (entryHtmlText e) "Start a conversation")
    then [] else st.modalHistory
  let hist1 := hist0 ++ [ChatEntry.userMsg (jsTrim input)]
  let hist2 := hist1 ++ [ChatEntry.loading loadingId]
  match resp with
  | .ok reply => removeLoading hist2 loadingId ++ [ChatEntry.aiMsg reply]
  | .httpError detail =>
      removeLoading hist2 loadingId ++
        [ChatEntry.errorMsg ("Error: " ++ jsOr (detail.getD "") "Unknown error")]
  | .thrown m =>
      removeLoading hist2 loadingId ++
        [ChatEntry.errorMsg ("Network Error: " ++ m)]

/-- Characterisation of a completed non-empty send: the final history is
written both to the modal and (after the collapse of the two consecutive
cache saves) to the current topic's cache entry, and the single effect is
the chat request carrying the cached context. -/
theorem sendChatMessage_eq (st : DashState) (sid : Option String)
    (input : String) (lid : Nat) (resp : ChatFetch) (hne : jsTrim input ≠ "") :
    sendChatMessage st sid input lid resp =
      ({ st with
          chatHistoryMap := objAssign st.chatHistoryMap st.currentChatTopic
            (sendFinalHist st input lid resp),
          modalHistory := sendFinalHist st input lid resp },
       [.request (.chat sid st.currentChatTopic st.currentChatContext
          (jsTrim input))]) := by
  unfold sendChatMessage sendFinalHist
  cases resp <;> simp [hne, objAssign_objAssign]

/-- An empty (all-whitespace) input is a complete no-op. -/
theorem sendChatMessage_empty (st : DashState) (sid : Option String)
    (input : String) (lid : Nat) (resp : ChatFetch) (he : jsTrim input = "") :
    sendChatMessage st sid input lid resp = (st, []) := by
  unfold sendChatMessage
  simp [he]

/-- **C5 (counterexample).** The claim as stated is false: the context
supplier (here `toString`, standing for the section's data at each
instant) is invoked at button-click time (instant `0`).  A send issued
later, when the supplier evaluates to `"1"`, still carries the cached
open-time snapshot `"0"`: `sendChatMessage` reads `currentChatContext` and
never re-invokes the supplier (`part_000` lines 188-192 and 252). -/
theorem C5_counterexample :
    (sendChatMessage (clickChatButton initialDashState "KPIs"
        (fun n => toString n) 0) (some "s") "hello" 7 (.ok "fine")).2 =
      [.request (.chat (some "s") "KPIs" "0" "hello")] ∧
    (fun n : Nat => toString n) 1 = "1" ∧ ("0" : String) ≠ "1" :=
  ⟨rfl, rfl, by decide⟩

/-- **C5 (amended).** The context supplier is invoked once, when the
section's chat button is clicked; every subsequent chat request carries
that open-time snapshot verbatim, regardless of the section's data at the
moment of the send. -/
theorem C5_context_cached_at_open (st : DashState) (topic : String)
    (f : Nat → String) (t : Nat) (sid : Option String) (input : String)
    (lid : Nat) (resp : ChatFetch) (hne : jsTrim input ≠ "") :
    (sendChatMessage (clickChatButton st topic f t) sid input lid resp).2 =
      [.request (.chat sid topic (f t) (jsTrim input))] := by
  rw [sendChatMessage_eq _ _ _ _ _ hne]
  simp [clickChatButton, openChat]

/-- Closed instance of `C5_context_cached_at_open`. -/
theorem C5_witness :
    (sendChatMessage (clickChatButton initialDashState "Risks"
        (fun n => toString n) 3) none "check this" 9 (.thrown "down")).2 =
      [.request (.chat none "Risks" "3" "check this")] :=
  C5_context_cached_at_open initialDashState "Risks" (fun n => toString n) 3
    none "check this" 9 (.thrown "down") (by decide)

/-- One dashboard action preserves uniqueness of the cache's topic keys. -/
theorem nodup_keys_dashStep (st : DashState) (op : DashOp)
    (h : (st.chatHistoryMap.map Prod.fst).Nodup) :
    ((dashStep st op).chatHistoryMap.map Prod.fst).Nodup := by
  cases op with
  | click topic f now => exact h
  | send sid input lid resp =>
      show (((sendChatMessage st sid input lid resp).1.chatHistoryMap).map Prod.fst).Nodup
      by_cases he : jsTrim input = ""
      · rw [sendChatMessage_empty st sid input lid resp he]
        exact h
      · rw [sendChatMessage_eq st sid input lid resp he]
        exact nodup_keys_objAssign _ _ h

/-- Along any run, the cache's topic keys stay unique. -/
theorem nodup_keys_runDash :
    ∀ (ops : List DashOp) (st : DashState),
      (st.chatHistoryMap.map Prod.fst).Nodup →
      ((runDash st ops).chatHistoryMap.map Prod.fst).Nodup := by
  intro ops
  induction ops with
  | nil => intro st h; exact h
  | cons op ops ih => intro st h; exact ih _ (nodup_keys_dashStep st op h)

/-- **C7.** Opening a topic's chat thread does not modify the per-topic
cache, so opening twice with no sends in between displays the same
accumulated history both times; a non-empty stored history is resumed
verbatim; and each topic maps to at most one thread (the cache's keys stay
pairwise distinct along every run from the initial dashboard state). -/
theorem C7_reopen_resumes (st : DashState) (topic c₁ c₂ : String) :
    (openChat (openChat st topic c₁) topic c₂).modalHistory =
      (openChat st topic c₁).modalHistory ∧
    (openChat st topic c₁).chatHistoryMap = st.chatHistoryMap ∧
    (∀ h, objLookup st.chatHistoryMap topic = some h → h ≠ [] →
      (openChat st topic c₁).modalHistory = h) ∧
    ∀ ops : List DashOp,
      ((runDash initialDashState ops).chatHistoryMap.map Prod.fst).Nodup := by
  refine ⟨rfl, rfl, ?_, ?_⟩
  · intro h hl hne
    simp [openChat, jsOrHistory, hl, List.isEmpty_iff, hne]
  · intro ops
    exact nodup_keys_runDash ops initialDashState (by simp [initialDashState])

/-- Closed instance of `C7_reopen_resumes`: a stored history is resumed on
re-open. -/
theorem C7_witness :
    (openChat ⟨"", "", [("KPIs", [ChatEntry.userMsg "older question"])], []⟩
        "KPIs" "ctx").modalHistory = [ChatEntry.userMsg "older question"] :=
  (C7_reopen_resumes ⟨"", "", [("KPIs", [ChatEntry.userMsg "older question"])], []⟩
    "KPIs" "ctx" "ctx").2.2.1 [ChatEntry.userMsg "older question"] rfl (by decide)

/-- Erasing the loading bubble just appended recovers the prior history,
provided the prior history does not already hold a bubble with that id. -/
theorem removeLoading_append_loading (l : List ChatEntry) (lid : Nat)
    (h : ChatEntry.loading lid ∉ l) :
    removeLoading (l ++ [ChatEntry.loading lid]) lid = l := by
  unfold removeLoading
  have h1 : ∀ b ∈ l, ¬((b == ChatEntry.loading lid) = true) := by
    intro b hb hbeq
    rw [beq_iff_eq] at hbeq
    exact h (hbeq ▸ hb)
  rw [List.eraseP_append_right _ h1, List.eraseP_cons_of_pos (by simp)]
  simp

/-- **C9.** For every chat send that fails (non-success response or
transport exception) with a non-empty input and a fresh loading id: the
user's message remains in the thread's stored history, the pending loading
bubble is gone, and the last stored entry is a visible error bubble whose
text contains the best available diagnostic (the backend `detail` when
present, the thrown message for a transport failure); the send is not
rolled back. -/
theorem C9_failed_send (st : DashState) (sid : Option String) (input : String)
    (lid : Nat) (resp : ChatFetch) (hne : jsTrim input ≠ "")
    (hfail : ∀ r, resp ≠ .ok r)
    (hl : ChatEntry.loading lid ∉ st.modalHistory) :
    ChatEntry.userMsg (jsTrim input) ∈
      storedHist (sendChatMessage st sid input lid resp).1 st.currentChatTopic ∧
    ChatEntry.loading lid ∉
      storedHist (sendChatMessage st sid input lid resp).1 st.currentChatTopic ∧
    ∃ emsg,
      (storedHist (sendChatMessage st sid input lid resp).1
          st.currentChatTopic).getLast? = some (.errorMsg emsg) ∧
      (∀ d, resp = .httpError (some d) → d ≠ "" → strIncludes emsg d = true) ∧
      (∀ m, resp = .thrown m → strIncludes emsg m = true) := by
  rw [sendChatMessage_eq st sid input lid resp hne]
  have hstored :
      storedHist
        ({ st with
            chatHistoryMap := objAssign st.chatHistoryMap st.currentChatTopic
              (sendFinalHist st input lid resp),
            modalHistory := sendFinalHist st input lid resp },
          ([.request (.chat sid st.currentChatTopic st.currentChatContext
            (jsTrim input))] : List Effect)).1 st.currentChatTopic =
        sendFinalHist st input lid resp := by
    unfold storedHist
    rw [objLookup_objAssign_self]
    rfl
  rw [hstored]
  have hl0 :
      ChatEntry.loading lid ∉
        (if st.modalHistory.any
            (fun e => strIncludes (entryHtmlText e) "Start a conversation")
         then [] else st.modalHistory) := by
    split
    · simp
    · exact hl
  cases resp with
  | ok r => exact absurd rfl (hfail r)
  | httpError detail =>
      simp only [sendFinalHist]
      rw [removeLoading_append_loading _ _ (by
        intro hmem
        rcases List.mem_append.mp hmem with h1 | h1
        · exact hl0 h1
        · simp at h1)]
      refine ⟨by simp, ?_, ?_⟩
      · intro hmem
        rcases List.mem_append.mp hmem with h1 | h1
        · rcases List.mem_append.mp h1 with h2 | h2
          · exact hl0 h2
          · simp at h2
        · simp at h1
      refine ⟨"Error: " ++ jsOr (detail.getD "") "Unknown error",
        List.getLast?_concat _, ?_, ?_⟩
      · intro d hd hdne
        injection hd with he
        subst he
        have hv : jsOr (Option.getD (some d) "") "Unknown error" = d := by
          simp [jsOr, hdne]
        rw [hv]
        exact strIncludes_append_self "Error: " d
      · intro m hm
        exact ChatFetch.noConfusion hm
  | thrown m =>
      simp only [sendFinalHist]
      rw [removeLoading_append_loading _ _ (by
        intro hmem
        rcases List.mem_append.mp hmem with h1 | h1
        · exact hl0 h1
        · simp at h1)]
      refine ⟨by simp, ?_, ?_⟩
      · intro hmem
        rcases List.mem_append.mp hmem with h1 | h1
        · rcases List.mem_append.mp h1 with h2 | h2
          · exact hl0 h2
          · simp at h2
        · simp at h1
      refine ⟨"Network Error: " ++ m, List.getLast?_concat _, ?_, ?_⟩
      · intro d hd
        exact ChatFetch.noConfusion hd
      · intro m2 h
        injection h with he
        subst he
        exact strIncludes_append_self "Network Error: " m

/-- Closed instance of `C9_failed_send`. -/
theorem C9_witness :
    ChatEntry.userMsg "hello" ∈
      storedHist (sendChatMessage
        (clickChatButton initialDashState "KPIs" (fun _ => "ctx") 0)
        (some "s") "hello" 7 (.httpError (some "boom"))).1 "KPIs" :=
  (C9_failed_send (clickChatButton initialDashState "KPIs" (fun _ => "ctx") 0)
    (some "s") "hello" 7 (.httpError (some "boom")) (by decide)
    (fun r h => ChatFetch.noConfusion h) (by decide)).1

/-! ## History isolation (C8) -/

theorem userMsgsOf_append (a b : List ChatEntry) :
    userMsgsOf (a ++ b) = userMsgsOf a ++ userMsgsOf b :=
  List.filterMap_append a b _

theorem userMsgsOf_sublist {a b : List ChatEntry} (h : List.Sublist a b) :
    List.Sublist (userMsgsOf a) (userMsgsOf b) :=
  h.filterMap _

theorem userMsgsOf_removeLoading (h : List ChatEntry) (lid : Nat) :
    List.Sublist (userMsgsOf (removeLoading h lid)) (userMsgsOf h) :=
  userMsgsOf_sublist (List.eraseP_sublist h)

/-- Any final history of a send contributes, as user messages, at most the
prior modal's user messages followed by the newly sent text. -/
theorem userMsgsOf_final_shape (st : DashState) (input : String) (lid : Nat)
    (tail : ChatEntry) (htail : userMsgsOf [tail] = []) :
    List.Sublist
      (userMsgsOf (removeLoading
        (((if st.modalHistory.any
              (fun e => strIncludes (entryHtmlText e) "Start a conversation")
            then [] else st.modalHistory) ++ [ChatEntry.userMsg (jsTrim input)]) ++
          [ChatEntry.loading lid]) lid ++ [tail]))
      (userMsgsOf st.modalHistory ++ [jsTrim input]) := by
  rw [userMsgsOf_append, htail, List.append_nil]
  refine (userMsgsOf_removeLoading _ _).trans ?_
  rw [userMsgsOf_append, userMsgsOf_append]
  have hload : userMsgsOf [ChatEntry.loading lid] = [] := rfl
  have huser : userMsgsOf [ChatEntry.userMsg (jsTrim input)] = [jsTrim input] := rfl
  rw [hload, List.append_nil, huser]
  refine List.Sublist.append ?_ (List.Sublist.refl _)
  split
  · exact List.nil_sublist _
  · exact List.Sublist.refl _

theorem userMsgsOf_sendFinalHist (st : DashState) (input : String) (lid : Nat)
    (resp : ChatFetch) :
    List.Sublist (userMsgsOf (sendFinalHist st input lid resp))
      (userMsgsOf st.modalHistory ++ [jsTrim input]) := by
  cases resp with
  | ok r =>
      simp only [sendFinalHist]
      exact userMsgsOf_final_shape st input lid _ rfl
  | httpError detail =>
      simp only [sendFinalHist]
      exact userMsgsOf_final_shape st input lid _ rfl
  | thrown m =>
      simp only [sendFinalHist]
      exact userMsgsOf_final_shape st input lid _ rfl

/-- Unfolding equations for `sentOn`. -/
theorem sentOn_nil (T : String) (st : DashState) : sentOn T st [] = [] := rfl

theorem sentOn_click (T : String) (st : DashState) (topic : String)
    (f : Nat → String) (now : Nat) (ops : List DashOp) :
    sentOn T st (.click topic f now :: ops) =
      sentOn T (dashStep st (.click topic f now)) ops := rfl

theorem sentOn_send_pos (T : String) (st : DashState) (sid : Option String)
    (input : String) (lid : Nat) (resp : ChatFetch) (ops : List DashOp)
    (h1 : st.currentChatTopic = T) (h2 : jsTrim input ≠ "") :
    sentOn T st (.send sid input lid resp :: ops) =
      jsTrim input :: sentOn T (dashStep st (.send sid input lid resp)) ops := by
  simp only [sentOn]
  rw [if_pos ⟨h1, h2⟩]

theorem sentOn_send_neg (T : String) (st : DashState) (sid : Option String)
    (input : String) (lid : Nat) (resp : ChatFetch) (ops : List DashOp)
    (h : ¬ (st.currentChatTopic = T ∧ jsTrim input ≠ "")) :
    sentOn T st (.send sid input lid resp :: ops) =
      sentOn T (dashStep st (.send sid input lid resp)) ops := by
  simp only [sentOn]
  rw [if_neg h]

/-- Invariant propagation and the per-topic bound, in one induction: if the
modal's user messages are a subsequence of the current topic's stored
history, then after any run each topic's stored history holds, as user
messages, at most its prior stored messages followed by the texts sent on
that topic, in order. -/
theorem stored_userMsgs_sublist :
    ∀ (ops : List DashOp) (st : DashState),
      List.Sublist (userMsgsOf st.modalHistory)
        (userMsgsOf (storedHist st st.currentChatTopic)) →
      ∀ T : String,
        List.Sublist (userMsgsOf (storedHist (runDash st ops) T))
          (userMsgsOf (storedHist st T) ++ sentOn T st ops) := by
  intro ops
  induction ops with
  | nil =>
      intro st _ T
      simp only [runDash, sentOn_nil, List.append_nil]
      exact List.Sublist.refl _
  | cons op ops ih =>
      intro st hInv T
      rw [show runDash st (op :: ops) = runDash (dashStep st op) ops from rfl]
      cases op with
      | click topic f now =>
          have hInv' :
              List.Sublist
                (userMsgsOf (dashStep st (.click topic f now)).modalHistory)
                (userMsgsOf (storedHist (dashStep st (.click topic f now))
                  (dashStep st (.click topic f now)).currentChatTopic)) := by
            show List.Sublist
              (userMsgsOf (jsOrHistory (objLookup st.chatHistoryMap topic)))
              (userMsgsOf (storedHist st topic))
            cases hlk : objLookup st.chatHistoryMap topic with
            | none => exact List.nil_sublist _
            | some h =>
                by_cases hh : h.isEmpty
                · simp [jsOrHistory, hh, userMsgsOf]
                · simp only [jsOrHistory, hh, if_neg, Bool.false_eq_true,
                    not_false_eq_true]
                  unfold storedHist
                  rw [hlk]
                  exact List.Sublist.refl _
          have h := ih (dashStep st (.click topic f now)) hInv' T
          rw [sentOn_click]
          exact h
      | send sid input lid resp =>
          by_cases he : jsTrim input = ""
          · have hstep : dashStep st (.send sid input lid resp) = st := by
              show (sendChatMessage st sid input lid resp).1 = st
              rw [sendChatMessage_empty st sid input lid resp he]
            have hcond : ¬ (st.currentChatTopic = T ∧ jsTrim input ≠ "") := by
              rintro ⟨-, hne⟩; exact hne he
            rw [sentOn_send_neg T st sid input lid resp ops hcond, hstep]
            exact ih st hInv T
          · have hstep : dashStep st (.send sid input lid resp) =
                { st with
                    chatHistoryMap := objAssign st.chatHistoryMap
                      st.currentChatTopic (sendFinalHist st input lid resp),
                    modalHistory := sendFinalHist st input lid resp } := by
              show (sendChatMessage st sid input lid resp).1 = _
              rw [sendChatMessage_eq st sid input lid resp he]
            have hmap : (dashStep st (.send sid input lid resp)).chatHistoryMap =
                objAssign st.chatHistoryMap st.currentChatTopic
                  (sendFinalHist st input lid resp) := by
              rw [hstep]
            have htopic : (dashStep st (.send sid input lid resp)).currentChatTopic =
                st.currentChatTopic := by
              rw [hstep]
            have hstoredSelf :
                storedHist (dashStep st (.send sid input lid resp))
                  st.currentChatTopic = sendFinalHist st input lid resp := by
              unfold storedHist
              rw [hmap, objLookup_objAssign_self]
              rfl
            have hInv' :
                List.Sublist
                  (userMsgsOf (dashStep st (.send sid input lid resp)).modalHistory)
                  (userMsgsOf (storedHist (dashStep st (.send sid input lid resp))
                    (dashStep st (.send sid input lid resp)).currentChatTopic)) := by
              rw [htopic, hstoredSelf, hstep]
            have h := ih (dashStep st (.send sid input lid resp)) hInv' T
            by_cases hT : st.currentChatTopic = T
            · subst hT
              rw [hstoredSelf] at h
              have hbound :
                  List.Sublist (userMsgsOf (sendFinalHist st input lid resp))
                    (userMsgsOf (storedHist st st.currentChatTopic) ++
                      [jsTrim input]) :=
                (userMsgsOf_sendFinalHist st input lid resp).trans
                  (List.Sublist.append hInv (List.Sublist.refl _))
              rw [sentOn_send_pos st.currentChatTopic st sid input lid resp ops
                rfl he]
              have hfinal :
                  List.Sublist
                    (userMsgsOf (sendFinalHist st input lid resp) ++
                      sentOn st.currentChatTopic
                        (dashStep st (.send sid input lid resp)) ops)
                    ((userMsgsOf (storedHist st st.currentChatTopic) ++
                        [jsTrim input]) ++
                      sentOn st.currentChatTopic
                        (dashStep st (.send sid input lid resp)) ops) :=
                List.Sublist.append hbound (List.Sublist.refl _)
              rw [List.append_assoc] at hfinal
              exact h.trans hfinal
            · have hstoredNe :
                  storedHist (dashStep st (.send sid input lid resp)) T =
                    storedHist st T := by
                unfold storedHist
                rw [hmap, objLookup_objAssign_ne _ _ _ _ (fun hTT => hT hTT.symm)]
              rw [hstoredNe] at h
              have hcond : ¬ (st.currentChatTopic = T ∧ jsTrim input ≠ "") := by
                rintro ⟨hTT, -⟩; exact hT hTT
              rw [sentOn_send_neg T st sid input lid resp ops hcond]
              exact h

/-- **C8.** For every sequence of completed dashboard actions and every
topic, the user messages in that topic's stored thread history are exactly
drawn, in send order, from the non-empty texts sent while that topic was
current (an order-preserving subsequence); consequently a message sent
only on one topic never appears in another topic's history. -/
theorem C8_histories_isolated (ops : List DashOp) (T : String) :
    List.Sublist (userMsgsOf (storedHist (runDash initialDashState ops) T))
      (sentOn T initialDashState ops) ∧
    ∀ m, m ∈ userMsgsOf (storedHist (runDash initialDashState ops) T) →
      m ∈ sentOn T initialDashState ops := by
  have hInv : List.Sublist (userMsgsOf initialDashState.modalHistory)
      (userMsgsOf (storedHist initialDashState
        initialDashState.currentChatTopic)) :=
    List.nil_sublist _
  have h := stored_userMsgs_sublist ops initialDashState hInv T
  have hstored : storedHist initialDashState T = [] := rfl
  rw [hstored] at h
  have h' : List.Sublist
      (userMsgsOf (storedHist (runDash initialDashState ops) T))
      (sentOn T initialDashState ops) := by
    simpa [userMsgsOf] using h
  exact ⟨h', fun m hm => h'.mem hm⟩

end BizAssist

